import Mathlib

/-!
# Verification of the dots-ocr-client page-processing pipeline

Shallow embedding of the core of `dots_ocr_client` (the dimension
normalizer, the coordinate mapper, the output-recovery engine and the
page task scheduler) together with theorems settling the frozen claims
about the repository.

Conventions of the embedding:
* Python `int(float(a) / (c / b))` (truncation toward zero of an exact
  real quotient) is modelled as exact integer arithmetic
  `Int.tdiv (a * b) c`; floating-point rounding is idealized away.
* Fallible Python code (exceptions, failed `assert`s, `KeyError`,
  `IndexError`) is modelled with `Option`/`Except`.
* JSON values handled dynamically by the Python code are modelled by the
  inductive type `PyVal`; numbers are integers, following the wire shape
  of the structured model response (4-integer bboxes).
* Code of the repository that is not under `src/` (`image_utils.py`,
  `consts.py`, `output_cleaner.py`) is modelled from the spec; each such
  definition carries a doc comment starting with `Modelled from the spec:`.
-/

/-- Modelled from the spec: `MIN_PIXELS` from the missing `consts.py`;
the value matches the defaults written in `layout_utils.py` and the
example scenario of spec §8. -/
def MIN_PIXELS : Nat := 3136

/-- Modelled from the spec: `MAX_PIXELS` from the missing `consts.py`;
the value matches the defaults written in `layout_utils.py` and the
example scenario of spec §8. -/
def MAX_PIXELS : Nat := 11289600

/-- Rounding division: `roundDiv n d` is `n / d` rounded to the nearest
integer (halves round up).  Used by the dimension normalizer to pick the
nearest multiple of the alignment factor. -/
def roundDiv (n d : Nat) : Nat := (2 * n + d) / (2 * d)

/-- `nearest_aligned n f` is the multiple of `f` nearest to `n`
(halves round up): the alignment grid point the normalizer starts from. -/
def nearest_aligned (n f : Nat) : Nat := f * roundDiv n f

/-- `floorSqrtDiv a b = ⌊√(a / b)⌋` for the exact rational `a / b`. -/
def floorSqrtDiv (a b : Nat) : Nat := Nat.sqrt (a / b)

/-- `ceilSqrtDiv a b = ⌈√(a / b)⌉` for the exact rational `a / b`:
the least `k` with `k * k * b ≥ a` (for `b > 0`). -/
def ceilSqrtDiv (a b : Nat) : Nat :=
  let k := Nat.sqrt (a / b)
  if a ≤ b * (k * k) then k else k + 1

/-- Modelled from the spec: `smart_resize` from the missing
`image_utils.py` (spec §4.1, Dimension Normalizer).  Maps a native
`(height, width)` to a factor-aligned pair: it rounds each dimension to
the nearest multiple of `factor` and, if the rounded pair's pixel count
leaves the `[min_pixels, max_pixels]` budget, rescales the native
dimensions by the aspect-ratio-preserving factor `β = √(h·w/max_pixels)`
(flooring) resp. `β = √(min_pixels/(h·w))` (ceiling), exactly as the
spec describes ("clamped to the nearer bound").  Exact integer
arithmetic replaces Python floats: `⌊h/(f·β)⌋ = ⌊√(h·max/(f²·w))⌋`.
Fails (`none`) when a native dimension or the factor is zero or the
budget is empty (spec §4.1 error condition `InvalidDimensions`). -/
def smart_resize (height width : Nat) (factor : Nat := 28)
    (min_pixels : Nat := MIN_PIXELS) (max_pixels : Nat := MAX_PIXELS) :
    Option (Nat × Nat) :=
  if height = 0 ∨ width = 0 ∨ factor = 0 ∨ max_pixels < min_pixels then none
  else
    let hr := nearest_aligned height factor
    let wr := nearest_aligned width factor
    if max_pixels < hr * wr then
      some (factor * floorSqrtDiv (height * max_pixels) (factor * factor * width),
            factor * floorSqrtDiv (width * max_pixels) (factor * factor * height))
    else if hr * wr < min_pixels then
      some (factor * ceilSqrtDiv (height * min_pixels) (factor * factor * width),
            factor * ceilSqrtDiv (width * min_pixels) (factor * factor * height))
    else
      some (hr, wr)

example : smart_resize 1000 700 = some (1008, 700) := by decide
example : smart_resize 3360 3360 = some (3360, 3360) := by decide
example : smart_resize 28 28 28 1000 1000 = some (56, 56) := by decide

/-- Models Python's `x or DEFAULT` for an optional numeric parameter:
both `None` and `0` fall back to the default
(`min_pixels = min_pixels or MIN_PIXELS`, `layout_utils.py:136-137`). -/
def pyCoalesce (x : Option Nat) (dflt : Nat) : Nat :=
  match x with
  | none => dflt
  | some n => if n = 0 then dflt else n

/-- Dynamic values flowing through the output-recovery engine: the JSON
values produced by `json.loads` on a model response and the Python
values handed to the fallback cleaner.  Numbers are integers, following
the wire shape of the structured response (spec §6: 4-integer bbox,
category string, optional text string). -/
inductive PyVal where
  | str (s : String)
  | int (n : Int)
  | list (xs : List PyVal)
  | obj (fields : List (String × PyVal))

/-- Python `d[k]` / `k in d` on a dict, modelled on the association-list
representation of `PyVal.obj` (keys are unique in a Python dict; the
first binding wins). -/
def lookupField (fields : List (String × PyVal)) (key : String) : Option PyVal :=
  match fields with
  | [] => none
  | (k, v) :: rest => if k = key then some v else lookupField rest key

/-- Python `d.copy()` followed by `d[key] = v` (`layout_utils.py:200-201`):
replaces the value stored under `key`, keeping field order. -/
def setField (fields : List (String × PyVal)) (key : String) (v : PyVal) :
    List (String × PyVal) :=
  fields.map (fun kv => if kv.1 = key then (kv.1, v) else kv)

/-- Exact-integer model of `int(float(b) / (den / num))`
(`layout_utils.py:148-151` and `:195-198`): scale `b` by `num / den` and
truncate toward zero, as Python's `int()` does. -/
def pyScaleDiv (b : Int) (num den : Nat) : Int := Int.tdiv (b * (num : Int)) (den : Int)

/-- The Python `for`-loop-with-append pattern over a fallible body:
applies `f` to every element, the first exception (`none`) aborting the
whole loop. -/
def optionMapList {α β : Type} (f : α → Option β) : List α → Option (List β)
  | [] => some []
  | x :: xs =>
      match f x with
      | none => none
      | some y =>
          match optionMapList f xs with
          | none => none
          | some ys => some (y :: ys)

/-- Scales the four coordinates of one bbox as `pre_process_bboxes` does
(`layout_utils.py:147-152`): x-coordinates by `iw / ow`, y-coordinates by
`ih / oh`, truncating.  `none` models the `IndexError` raised when the
bbox has fewer than four entries; any further entries are dropped because
the source builds a fresh 4-element list. -/
def scaleBBoxToInput (ow oh iw ih : Nat) : List Int → Option (List Int)
  | b0 :: b1 :: b2 :: b3 :: _ =>
      some [pyScaleDiv b0 iw ow, pyScaleDiv b1 ih oh,
            pyScaleDiv b2 iw ow, pyScaleDiv b3 ih oh]
  | _ => none

/-- `pre_process_bboxes` (`layout_utils.py:126-155`): maps caller-supplied
bboxes from original pixel space into the normalized space actually sent
to the model (grounding mode).  `origin_image.size` is `(ow, oh)`; the
`assert` on a non-empty list of lists and -- via `Option` -- every raised
exception are modelled as `none`.  The PIL image argument is reduced to
its dimensions, the only attribute the source reads. -/
def pre_process_bboxes (ow oh : Nat) (bboxes : List (List Int))
    (input_width input_height : Nat)
    (min_pixels max_pixels : Option Nat) : Option (List (List Int)) :=
  if bboxes.isEmpty then none
  else
    let minP := pyCoalesce min_pixels MIN_PIXELS
    let maxP := pyCoalesce max_pixels MAX_PIXELS
    match smart_resize input_height input_width 28 minP maxP with
    | none => none
    | some (ih, iw) => optionMapList (scaleBBoxToInput ow oh iw ih) bboxes

/-- Reads the 4-integer bbox of a cell record, as `cell['bbox']` /
`bbox[0] .. bbox[3]` do; `none` models the exception raised when the
record is not a dict, has no `bbox` key, or the bbox is not a list of at
least four numbers. -/
def cellBBox (cell : PyVal) : Option (Int × Int × Int × Int) :=
  match cell with
  | .obj fields =>
      match lookupField fields "bbox" with
      | some (.list (.int b0 :: .int b1 :: .int b2 :: .int b3 :: _)) =>
          some (b0, b1, b2, b3)
      | _ => none
  | _ => none

/-- Rescales one cell as the loop body of `post_process_cells` does
(`layout_utils.py:192-202`): reads `cell['bbox']`, scales each coordinate
from normalized space back to original space (x by `ow / iw`, y by
`oh / ih`, truncating), and stores the fresh 4-element bbox in a copy of
the cell. -/
def rescaleCell (ow oh iw ih : Nat) (cell : PyVal) : Option PyVal :=
  match cell with
  | .obj fields =>
      match cellBBox cell with
      | none => none
      | some (b0, b1, b2, b3) =>
          some (.obj (setField fields "bbox"
            (.list [.int (pyScaleDiv b0 ow iw), .int (pyScaleDiv b1 oh ih),
                    .int (pyScaleDiv b2 ow iw), .int (pyScaleDiv b3 oh ih)])))
  | _ => none

/-- `post_process_cells` (`layout_utils.py:157-204`): converts the cell
bboxes of a parsed model response from the normalized dimensions back to
the original dimensions.  The `assert` (`:181`) requires a non-empty list
whose first element is a dict; `none` models any raised exception
(failed assert, `KeyError`, malformed bbox, `smart_resize` failure).
Only the first element's dict-ness is asserted, exactly as in the
source; later non-dict elements fail when their `bbox` is read. -/
def post_process_cells (ow oh : Nat) (cells : PyVal)
    (input_width input_height : Nat)
    (min_pixels max_pixels : Option Nat) : Option (List PyVal) :=
  match cells with
  | .list cellList =>
      match cellList with
      | [] => none
      | first :: _ =>
          match first with
          | .obj _ =>
              let minP := pyCoalesce min_pixels MIN_PIXELS
              let maxP := pyCoalesce max_pixels MAX_PIXELS
              match smart_resize input_height input_width 28 minP maxP with
              | none => none
              | some (ih, iw) => optionMapList (rescaleCell ow oh iw ih) cellList
          | _ => none
  | _ => none

/-- `is_legal_bbox` (`layout_utils.py:206-211`): a batch of cells is
legal when no cell has `bbox[2] <= bbox[0]` or `bbox[3] <= bbox[1]`.
This helper is defined in the source but never called by it; it is
embedded here because the claims refer to it.  A cell whose bbox cannot
be read (which would raise in Python) is treated as legal, which is
sound for its use below: it is only applied to outputs of
`post_process_cells`, whose cells all carry well-formed bboxes. -/
def is_legal_bbox (cells : List PyVal) : Bool :=
  cells.all fun cell =>
    match cellBBox cell with
    | some (b0, b1, b2, b3) => !(b2 ≤ b0 || b3 ≤ b1)
    | none => true

/-- Modelled from the spec: a cell-like record as seen by the fallback
branch.  The cleaner (`output_cleaner.py`, missing from `src/`) yields
records with a bbox, a category and an optional text string (spec §4.3,
§6); only the optional `text` field is consulted by the fallback join,
so only it is carried here. -/
structure CellRec where
  textField : Option String

/-- Modelled from the spec: the result type of
`OutputCleaner.clean_model_output` (`output_cleaner.py` is missing from
`src/`).  Per spec §4.3 the cleaner either returns the cleaned text
unchanged or a payload that still parses as a list of cell-like
records; `post_process_output` distinguishes the two by
`isinstance(response_clean, list)`. -/
inductive CleanOut where
  | text (s : String)
  | cells (cs : List CellRec)

/-- The value returned by `post_process_output`: either the bare
response string (pass-through prompt modes, `layout_utils.py:214-215`)
or a `(payload, filtered)` pair (`:229` and `:239`). -/
inductive PPOut where
  | single (s : String)
  | pair (payload : PyVal) (filtered : Bool)

/-- The prompt modes that bypass the output-recovery engine
(`layout_utils.py:214`). -/
def passthroughModes : List String :=
  ["prompt_ocr", "prompt_table_html", "prompt_table_latex", "prompt_formula_latex"]

/-- The fallback branch of `post_process_output`
(`layout_utils.py:234-239`): runs the cleaner on `cells` (the raw
response string, or the parsed value if `json.loads` succeeded and a
later step failed); if the cleaned payload is a list, joins the `text`
field of every record that has one with blank lines; otherwise returns
the cleaned payload unchanged.  The second component is always `true`. -/
def fallbackSalvage (clean : PyVal → CleanOut) (cells : PyVal) : PPOut :=
  match clean cells with
  | .text s => .pair (.str s) true
  | .cells cs =>
      .pair (.str (String.intercalate "\n\n" (cs.filterMap CellRec.textField))) true

/-- `post_process_output` (`layout_utils.py:213-239`): the output-recovery
engine.  Pass-through modes return the raw response.  Otherwise the
response is parsed as JSON and the cells are remapped by
`post_process_cells`; on success the pair `(cells, False)` is returned.
Any exception in that `try` block (parse failure, failed assert, bad
cell) sends the current value of `cells` -- the raw string, or the
parsed value after a successful `json.loads` -- to the fallback branch.
`json.loads` (Python stdlib, external) is a parameter `jsonLoads`
(`none` models a raised `JSONDecodeError`), and the missing cleaner is a
parameter `clean`.  The PIL images are reduced to their dimensions
`(ow, oh)` / `(iw, ih)`, the only attributes the source reads. -/
def post_process_output (jsonLoads : String → Option PyVal)
    (clean : PyVal → CleanOut) (response : String) (prompt_mode : String)
    (ow oh iw ih : Nat) (min_pixels max_pixels : Option Nat) : PPOut :=
  if prompt_mode ∈ passthroughModes then .single response
  else
    match jsonLoads response with
    | none => fallbackSalvage clean (.str response)
    | some parsed =>
        match post_process_cells ow oh parsed iw ih min_pixels max_pixels with
        | some cellsOut => .pair (.list cellsOut) false
        | none => fallbackSalvage clean parsed

/-- The prompt modes routed through the output-recovery engine by
`_parse_single_image` (`parser.py:134`). -/
def layoutModes : List String :=
  ["prompt_layout_all_en", "prompt_layout_only_en", "prompt_grounding_ocr"]

/-- An unrecoverable error of one page task. -/
inductive PageErr where
  | infFail (msg : String)
  | resizeFail
  | assertFail

/-- The per-page outcome assembled by `_parse_single_image`
(`parser.py:128-172`): the page index, the normalized dimensions stored
in the result, the value stored under the `cells` (or `response`) key,
and whether the `'filtered': True` marker is present.  The derived
markdown renderings, the overlay image and the file path are I/O /
serialization concerns outside the embedded core. -/
structure PageResult where
  page_no : Nat
  input_height : Nat
  input_width : Nat
  payload : PyVal
  filtered : Bool

/-- `_parse_single_image` (`parser.py:102-172`), reduced to the embedded
core.  `fetch_image` (missing from `src/`) produced the input image; its
dimensions enter as `(iw, ih)`.  The external inference call is the
parameter `infResult` (`Except`: the client call returned text, or
raised).  Prompt construction (`get_prompt`) only affects the text sent
to the model, which is already abstracted into `infResult`.  Steps
mirrored from the source: the grounding-mode pixel-budget coalescing and
the `assert`s on `min_pixels`/`max_pixels` (`:113-118`), the
`smart_resize` of the input image (`:125`), the inference call (`:127`),
the result dict (`:128-131`), and the layout-mode branch (`:134-170`):
on `filtered` (except for detection-only mode) the result carries the
raw `response` and `'filtered': True` (`:143-147`); otherwise it
carries the value produced by `post_process_output` (`:148-158`). -/
def parse_single_core (jsonLoads : String → Option PyVal)
    (clean : PyVal → CleanOut) (prompt_mode : String) (page_idx : Nat)
    (ow oh iw ih : Nat) (min_pixels max_pixels : Option Nat)
    (infResult : Except String String) : Except PageErr PageResult := do
  let minP := if prompt_mode = "prompt_grounding_ocr"
    then some (pyCoalesce min_pixels MIN_PIXELS) else min_pixels
  let maxP := if prompt_mode = "prompt_grounding_ocr"
    then some (pyCoalesce max_pixels MAX_PIXELS) else max_pixels
  if minP.any (fun m => m < MIN_PIXELS) then throw .assertFail
  else if maxP.any (fun m => MAX_PIXELS < m) then throw .assertFail
  else
    match smart_resize ih iw with
    | none => throw .resizeFail
    | some (rh, rw) =>
      match infResult with
      | .error e => throw (.infFail e)
      | .ok response =>
        if prompt_mode ∈ layoutModes then
          match post_process_output jsonLoads clean response prompt_mode
              ow oh iw ih minP maxP with
          | .single s => pure ⟨page_idx, rh, rw, .str s, false⟩
          | .pair cells filtered =>
            if filtered && prompt_mode ≠ "prompt_layout_only_en" then
              pure ⟨page_idx, rh, rw, .str response, true⟩
            else
              pure ⟨page_idx, rh, rw, cells, false⟩
        else
          pure ⟨page_idx, rh, rw, .str response, false⟩

/-- The worker-pool size chosen by `parse_pdf` (`parser.py:198`):
`num_thread = min(total_pages, self.num_thread)`. -/
def pool_size (total_pages num_thread : Nat) : Nat := min total_pages num_thread

/-- The result-collection loop of `parse_pdf` (`parser.py:201-205`):
page-task outcomes are consumed in completion order; the first task that
raised makes the iteration re-raise, discarding the tasks after it
(the pool is terminated when the `with` block unwinds). -/
def gatherResults : List (Except PageErr PageResult) → Except PageErr (List PageResult)
  | [] => .ok []
  | .error e :: _ => .error e
  | .ok r :: rest =>
      match gatherResults rest with
      | .error e => .error e
      | .ok rs => .ok (r :: rs)

/-- The comparison used to re-order collected results:
`results.sort(key=lambda x: x["page_no"])` (`parser.py:207`). -/
def pageNoLE (a b : PageResult) : Bool := a.page_no ≤ b.page_no

/-- The fan-in of `parse_pdf` (`parser.py:195-210`): collect the page
results in completion order, then sort them by page index.  The
completion order is an arbitrary interleaving, so the scheduler is
embedded as a function of the completed-task list; the per-page tasks
themselves are `parse_single_core` applied to page `i`
(`parser.py:184-196`). -/
def parse_pdf_core (completed : List (Except PageErr PageResult)) :
    Except PageErr (List PageResult) :=
  match gatherResults completed with
  | .error e => .error e
  | .ok rs => .ok (rs.mergeSort pageNoLE)

/-- A failure of `parse_file`. -/
inductive FileErr where
  | unsupportedExt (ext : String)
  | pageErr (e : PageErr)

/-- `parse_file` (`parser.py:212-229`): dispatches on the file extension
computed by `os.path.splitext` (external stdlib; the extension enters as
`fileExt`).  `.pdf` goes to `parse_pdf`, a supported image extension to
`parse_image`, anything else raises `ValueError` before any page work.
The two branches are parameters carrying the outcome of the respective
page pipelines; the supported image-extension set (`consts.py`, missing
from `src/`) is the parameter `imageExts`. -/
def parse_file_core (imageExts : List String)
    (pdfResult imgResult : Except PageErr (List PageResult))
    (fileExt : String) : Except FileErr (List PageResult) :=
  if fileExt = ".pdf" then
    match pdfResult with
    | .ok rs => .ok rs
    | .error e => .error (.pageErr e)
  else if fileExt ∈ imageExts then
    match imgResult with
    | .ok rs => .ok rs
    | .error e => .error (.pageErr e)
  else .error (.unsupportedExt fileExt)

/-- A well-formed sample cell (legal bbox). -/
def cellA : PyVal :=
  .obj [("bbox", .list [.int 10, .int 10, .int 100, .int 100]),
        ("category", .str "Text"), ("text", .str "alpha")]

/-- A sample cell with the illegal bbox `[100, 100, 50, 50]`
(`x2 < x1`, `y2 < y1`) from the spec §8 example scenario. -/
def cellBad : PyVal :=
  .obj [("bbox", .list [.int 100, .int 100, .int 50, .int 50]),
        ("category", .str "Text"), ("text", .str "beta")]

/-- A second well-formed sample cell (legal bbox). -/
def cellC : PyVal :=
  .obj [("bbox", .list [.int 20, .int 120, .int 120, .int 200]),
        ("category", .str "Text"), ("text", .str "gamma")]

/-! ## Helper lemmas -/

/-- Closed-form evaluation of `Nat.sqrt` from a squeeze, usable where
kernel reduction of `Nat.sqrt` (well-founded recursion) is unavailable. -/
theorem sqrt_eq_of_squeeze {x k : Nat} (h1 : k * k ≤ x)
    (h2 : x < (k + 1) * (k + 1)) : Nat.sqrt x = k := by
  refine le_antisymm ?_ (Nat.le_sqrt.mpr h1)
  have := Nat.sqrt_lt'.mpr (show x < (k + 1) ^ 2 by rw [pow_two]; exact h2)
  omega

/-- The floor integer square root of the rational `a / b` satisfies its
defining lower inequality: `⌊√(a/b)⌋² · b ≤ a`. -/
theorem floorSqrtDiv_sq_mul_le (a b : Nat) (hb : 0 < b) :
    floorSqrtDiv a b * floorSqrtDiv a b * b ≤ a := by
  have h1 : floorSqrtDiv a b * floorSqrtDiv a b ≤ a / b := Nat.sqrt_le _
  exact (Nat.le_div_iff_mul_le hb).mp h1

/-- The ceiling integer square root of the rational `a / b` satisfies its
defining upper inequality: `a ≤ ⌈√(a/b)⌉² · b`. -/
theorem le_ceilSqrtDiv_sq_mul (a b : Nat) (hb : 0 < b) :
    a ≤ ceilSqrtDiv a b * ceilSqrtDiv a b * b := by
  unfold ceilSqrtDiv
  by_cases h : a ≤ b * (Nat.sqrt (a / b) * Nat.sqrt (a / b))
  · simpa [h] using h.trans (le_of_eq (by ring))
  · simp only [h, if_false]
    have h2 : a / b < (Nat.sqrt (a / b) + 1) * (Nat.sqrt (a / b) + 1) := by
      have := Nat.lt_succ_sqrt (a / b)
      simpa [Nat.succ_eq_add_one] using this
    have h3 : a < (Nat.sqrt (a / b) + 1) * (Nat.sqrt (a / b) + 1) * b :=
      (Nat.div_lt_iff_lt_mul hb).mp h2
    exact h3.le

/-- From squared bounds `x² ≤ y²` in `ℕ`, conclude `x ≤ y`; stated for
the product form used by the budget arguments. -/
theorem le_of_sq_le_sq_mul {x y c : Nat} (hc : 0 < c)
    (h : x * x * c ≤ y * y * c) : x ≤ y := by
  have h2 : x * x ≤ y * y := Nat.le_of_mul_le_mul_right h hc
  exact Nat.mul_self_le_mul_self_iff.mp h2

/-! ## Claim C5 — dimension-normalizer alignment and pixel budget -/

/-- C5 (amended): for every positive native `(height, width)`, positive
alignment factor and budget `min_pixels ≤ max_pixels`, `smart_resize`
succeeds and returns dimensions that are multiples of the factor; the
pixel product is at most `max_pixels` whenever the nearest-aligned pair
overshot the budget (downscale branch), at least `min_pixels` whenever
it undershot (upscale branch), and within both bounds whenever the
nearest-aligned pair already fit (in which case that pair is returned).
The unconditional two-sided budget of the original claim is refuted by
`smart_resize_budget_violated_cex`. -/
theorem smart_resize_aligned_and_budget
    (h w f minP maxP : Nat) (hh : 0 < h) (hw : 0 < w) (hf : 0 < f)
    (hmm : minP ≤ maxP) :
    ∃ rh rw, smart_resize h w f minP maxP = some (rh, rw) ∧
      rh % f = 0 ∧ rw % f = 0 ∧
      (maxP < nearest_aligned h f * nearest_aligned w f → rh * rw ≤ maxP) ∧
      (nearest_aligned h f * nearest_aligned w f < minP → minP ≤ rh * rw) ∧
      (minP ≤ nearest_aligned h f * nearest_aligned w f →
        nearest_aligned h f * nearest_aligned w f ≤ maxP →
        rh = nearest_aligned h f ∧ rw = nearest_aligned w f ∧
        minP ≤ rh * rw ∧ rh * rw ≤ maxP) := by
  have hguard : ¬ (h = 0 ∨ w = 0 ∨ f = 0 ∨ maxP < minP) := by
    push_neg
    exact ⟨hh.ne', hw.ne', hf.ne', hmm⟩
  unfold smart_resize
  rw [if_neg hguard]
  by_cases hmax : maxP < nearest_aligned h f * nearest_aligned w f
  · rw [if_pos hmax]
    refine ⟨_, _, rfl, Nat.mul_mod_right _ _, Nat.mul_mod_right _ _, ?_, ?_, ?_⟩
    · intro _
      have hbw : 0 < f * f * w := by positivity
      have hbh : 0 < f * f * h := by positivity
      have h1 := floorSqrtDiv_sq_mul_le (h * maxP) (f * f * w) hbw
      have h2 := floorSqrtDiv_sq_mul_le (w * maxP) (f * f * h) hbh
      set a := floorSqrtDiv (h * maxP) (f * f * w)
      set b := floorSqrtDiv (w * maxP) (f * f * h)
      have h3 : (a * a * (f * f * w)) * (b * b * (f * f * h)) ≤
          (h * maxP) * (w * maxP) := Nat.mul_le_mul h1 h2
      have h4 : (f * a * (f * b)) * (f * a * (f * b)) * (w * h) ≤
          maxP * maxP * (w * h) := by
        calc (f * a * (f * b)) * (f * a * (f * b)) * (w * h)
            = (a * a * (f * f * w)) * (b * b * (f * f * h)) := by ring
          _ ≤ (h * maxP) * (w * maxP) := h3
          _ = maxP * maxP * (w * h) := by ring
      have h5 : f * a * (f * b) ≤ maxP :=
        le_of_sq_le_sq_mul (by positivity) h4
      exact h5
    · intro hlt
      omega
    · intro _ hle
      exact absurd hmax (not_lt.mpr hle)
  · rw [if_neg hmax]
    by_cases hmin : nearest_aligned h f * nearest_aligned w f < minP
    · rw [if_pos hmin]
      refine ⟨_, _, rfl, Nat.mul_mod_right _ _, Nat.mul_mod_right _ _, ?_, ?_, ?_⟩
      · intro hlt
        exact absurd hlt hmax
      · intro _
        have hbw : 0 < f * f * w := by positivity
        have hbh : 0 < f * f * h := by positivity
        have h1 := le_ceilSqrtDiv_sq_mul (h * minP) (f * f * w) hbw
        have h2 := le_ceilSqrtDiv_sq_mul (w * minP) (f * f * h) hbh
        set a := ceilSqrtDiv (h * minP) (f * f * w)
        set b := ceilSqrtDiv (w * minP) (f * f * h)
        have h3 : (h * minP) * (w * minP) ≤
            (a * a * (f * f * w)) * (b * b * (f * f * h)) := Nat.mul_le_mul h1 h2
        have h4 : minP * minP * (w * h) ≤
            (f * a * (f * b)) * (f * a * (f * b)) * (w * h) := by
          calc minP * minP * (w * h)
              = (h * minP) * (w * minP) := by ring
            _ ≤ (a * a * (f * f * w)) * (b * b * (f * f * h)) := h3
            _ = (f * a * (f * b)) * (f * a * (f * b)) * (w * h) := by ring
        have h5 : minP ≤ f * a * (f * b) :=
          le_of_sq_le_sq_mul (by positivity) h4
        exact h5
      · intro hle _
        exact absurd hmin (not_lt.mpr hle)
    · rw [if_neg hmin]
      exact ⟨_, _, rfl, Nat.mul_mod_right _ _, Nat.mul_mod_right _ _,
        fun hlt => absurd hlt hmax,
        fun hlt => absurd hlt hmin,
        fun hle1 hle2 => ⟨rfl, rfl, hle1, hle2⟩⟩

/-- C5 witness: the amended theorem applied at the spec §8 example
page, native 1000×700 with the default factor and budget. -/
theorem smart_resize_aligned_and_budget_witness :
    0 < 1000 ∧ 0 < 700 ∧ 0 < 28 ∧ 3136 ≤ 11289600 ∧
    (∃ rh rw, smart_resize 1000 700 28 3136 11289600 = some (rh, rw) ∧
      rh % 28 = 0 ∧ rw % 28 = 0 ∧
      (11289600 < nearest_aligned 1000 28 * nearest_aligned 700 28 →
        rh * rw ≤ 11289600) ∧
      (nearest_aligned 1000 28 * nearest_aligned 700 28 < 3136 →
        3136 ≤ rh * rw) ∧
      (3136 ≤ nearest_aligned 1000 28 * nearest_aligned 700 28 →
        nearest_aligned 1000 28 * nearest_aligned 700 28 ≤ 11289600 →
        rh = nearest_aligned 1000 28 ∧ rw = nearest_aligned 700 28 ∧
        3136 ≤ rh * rw ∧ rh * rw ≤ 11289600)) :=
  ⟨by decide, by decide, by decide, by decide,
    smart_resize_aligned_and_budget 1000 700 28 3136 11289600
      (by decide) (by decide) (by decide) (by decide)⟩

/-- C5 counterexample: a 28×28 page with the valid budget
`min_pixels = max_pixels = 1000` is resized to 56×56, whose pixel count
3136 exceeds `max_pixels` — the claimed two-sided budget
`min_pixels ≤ new_h*new_w ≤ max_pixels` fails (no factor-aligned pair
fits this budget at all). -/
theorem smart_resize_budget_violated_cex :
    smart_resize 28 28 28 1000 1000 = some (56, 56) ∧
    ¬ (56 * 56 ≤ 1000) := by
  constructor
  · decide
  · decide

/-! ## Claim C3 — coordinate-mapper round trip -/

/-- Core floor-division round trip: scaling `b` down by `w / W` and back
up by `W / w` (both flooring) never grows the value, loses less than
`W / w + 1`, and in particular loses at most 1 when `W ≤ w`. -/
theorem roundtrip_nat (b W w : Nat) (hW : 0 < W) (hw : 0 < w) :
    b * w / W * W / w ≤ b ∧
    b * w < (b * w / W * W / w + 1) * w + W ∧
    (W ≤ w → b ≤ b * w / W * W / w + 1) := by
  have hb1 : b * w / W * W / w ≤ b := by
    have h1 : b * w / W * W ≤ b * w := Nat.div_mul_le_self _ _
    calc b * w / W * W / w ≤ b * w / w := Nat.div_le_div_right h1
      _ = b := Nat.mul_div_cancel b hw
  have hb2 : b * w < (b * w / W * W / w + 1) * w + W := by
    have h2 : b * w < (b * w / W + 1) * W :=
      (Nat.div_lt_iff_lt_mul hW).mp (Nat.lt_succ_self _)
    have h3 : b * w / W * W < (b * w / W * W / w + 1) * w :=
      (Nat.div_lt_iff_lt_mul hw).mp (Nat.lt_succ_self _)
    have h4 : (b * w / W + 1) * W = b * w / W * W + W := by ring
    omega
  refine ⟨hb1, hb2, fun hWw => ?_⟩
  have h5 : b * w < (b * w / W * W / w + 1 + 1) * w := by
    have : (b * w / W * W / w + 1) * w + W ≤ (b * w / W * W / w + 1 + 1) * w := by
      have : (b * w / W * W / w + 1 + 1) * w
          = (b * w / W * W / w + 1) * w + w := by ring
      omega
    omega
  exact Nat.lt_succ_iff.mp (Nat.lt_of_mul_lt_mul_right h5)

/-- `pyScaleDiv` on a natural coordinate is plain natural floor
division. -/
theorem pyScaleDiv_ofNat (a num den : Nat) :
    pyScaleDiv (a : Int) num den = ((a * num / den : Nat) : Int) := by
  unfold pyScaleDiv
  rw [show ((a : Int) * (num : Int)) = ((a * num : Nat) : Int) by push_cast; ring]
  rw [Int.ofNat_tdiv]

/-- C3 (amended): mapping a bbox with `pre_process_bboxes` into
normalized space and back with `post_process_cells` never grows a
coordinate; the loss on an x-coordinate is strictly below
`original_width / normalized_width + 1` (similarly for y), so it is at
most 1 whenever the page is not downscaled on that axis
(`original ≤ normalized`).  The unconditional ±1 bound of the original
claim fails for downscaled pages: see `bbox_roundtrip_two_off_cex`. -/
theorem bbox_roundtrip_bounded
    (ow oh iw ih rh rw : Nat) (x1 y1 x2 y2 : Nat)
    (minP maxP : Option Nat)
    (how : 0 < ow) (hoh : 0 < oh) (hrw : 0 < rw) (hrh : 0 < rh)
    (hsr : smart_resize ih iw 28 (pyCoalesce minP MIN_PIXELS)
      (pyCoalesce maxP MAX_PIXELS) = some (rh, rw)) :
    ∃ n1 n2 n3 n4 r1 r2 r3 r4 : Nat,
      pre_process_bboxes ow oh [[(x1 : Int), (y1 : Int), (x2 : Int), (y2 : Int)]]
        iw ih minP maxP = some [[(n1 : Int), (n2 : Int), (n3 : Int), (n4 : Int)]] ∧
      post_process_cells ow oh
        (.list [.obj [("bbox",
          .list [.int (n1 : Int), .int (n2 : Int), .int (n3 : Int), .int (n4 : Int)])]])
        iw ih minP maxP =
        some [.obj [("bbox",
          .list [.int (r1 : Int), .int (r2 : Int), .int (r3 : Int), .int (r4 : Int)])]] ∧
      (r1 ≤ x1 ∧ x1 * rw < (r1 + 1) * rw + ow ∧ (ow ≤ rw → x1 ≤ r1 + 1)) ∧
      (r2 ≤ y1 ∧ y1 * rh < (r2 + 1) * rh + oh ∧ (oh ≤ rh → y1 ≤ r2 + 1)) ∧
      (r3 ≤ x2 ∧ x2 * rw < (r3 + 1) * rw + ow ∧ (ow ≤ rw → x2 ≤ r3 + 1)) ∧
      (r4 ≤ y2 ∧ y2 * rh < (r4 + 1) * rh + oh ∧ (oh ≤ rh → y2 ≤ r4 + 1)) := by
  refine ⟨x1 * rw / ow, y1 * rh / oh, x2 * rw / ow, y2 * rh / oh,
    x1 * rw / ow * ow / rw, y1 * rh / oh * oh / rh,
    x2 * rw / ow * ow / rw, y2 * rh / oh * oh / rh, ?_, ?_, ?_, ?_, ?_, ?_⟩
  · simp only [pre_process_bboxes, List.isEmpty_cons, Bool.false_eq_true, if_false,
      hsr, optionMapList, scaleBBoxToInput, pyScaleDiv_ofNat]
  · simp only [post_process_cells, hsr, optionMapList, rescaleCell, cellBBox,
      lookupField, setField, List.map_cons, List.map_nil, if_true, pyScaleDiv_ofNat]

  · exact roundtrip_nat x1 ow rw how hrw
  · exact roundtrip_nat y1 oh rh hoh hrh
  · exact roundtrip_nat x2 ow rw how hrw
  · exact roundtrip_nat y2 oh rh hoh hrh

/-- C3 witness: the amended theorem at a 700×1000 page (not
downscaled: normalized 700×1008). -/
theorem bbox_roundtrip_bounded_witness :
    0 < 700 ∧ 0 < 1000 ∧ 0 < 700 ∧ 0 < 1008 ∧
    smart_resize 1000 700 28 (pyCoalesce none MIN_PIXELS)
      (pyCoalesce none MAX_PIXELS) = some (1008, 700) ∧
    (∃ n1 n2 n3 n4 r1 r2 r3 r4 : Nat,
      pre_process_bboxes 700 1000 [[(10 : Int), ((20 : Nat) : Int), ((30 : Nat) : Int), ((40 : Nat) : Int)]]
        700 1000 none none = some [[(n1 : Int), (n2 : Int), (n3 : Int), (n4 : Int)]] ∧
      post_process_cells 700 1000
        (.list [.obj [("bbox",
          .list [.int (n1 : Int), .int (n2 : Int), .int (n3 : Int), .int (n4 : Int)])]])
        700 1000 none none =
        some [.obj [("bbox",
          .list [.int (r1 : Int), .int (r2 : Int), .int (r3 : Int), .int (r4 : Int)])]] ∧
      (r1 ≤ 10 ∧ 10 * 700 < (r1 + 1) * 700 + 700 ∧ (700 ≤ 700 → 10 ≤ r1 + 1)) ∧
      (r2 ≤ 20 ∧ 20 * 1008 < (r2 + 1) * 1008 + 1000 ∧ (1000 ≤ 1008 → 20 ≤ r2 + 1)) ∧
      (r3 ≤ 30 ∧ 30 * 700 < (r3 + 1) * 700 + 700 ∧ (700 ≤ 700 → 30 ≤ r3 + 1)) ∧
      (r4 ≤ 40 ∧ 40 * 1008 < (r4 + 1) * 1008 + 1000 ∧ (1000 ≤ 1008 → 40 ≤ r4 + 1))) :=
  ⟨by decide, by decide, by decide, by decide, by decide,
    bbox_roundtrip_bounded 700 1000 700 1000 1008 700 10 20 30 40 none none
      (by decide) (by decide) (by decide) (by decide) (by decide)⟩

/-- If every completed task succeeded, the collection loop returns all
results, in completion order. -/
theorem gather_all_ok (xs : List (Except PageErr PageResult))
    (h : ∀ x ∈ xs, ∃ r, x = Except.ok r) :
    ∃ rs, gatherResults xs = .ok rs ∧ xs = rs.map Except.ok := by
  induction xs with
  | nil => exact ⟨[], rfl, rfl⟩
  | cons x xs ih =>
    obtain ⟨r, rfl⟩ := h x (List.mem_cons_self x xs)
    obtain ⟨rs, h1, h2⟩ := ih (fun y hy => h y (List.mem_cons_of_mem _ hy))
    refine ⟨r :: rs, ?_, by simp [h2]⟩
    simp [gatherResults, h1]

/-- The collection loop re-raises the first failed task it consumes,
whatever tasks were still pending behind it. -/
theorem gather_first_error (pre : List (Except PageErr PageResult))
    (e : PageErr) (post : List (Except PageErr PageResult))
    (h : ∀ x ∈ pre, ∃ r, x = Except.ok r) :
    gatherResults (pre ++ .error e :: post) = .error e := by
  induction pre with
  | nil => rfl
  | cons x xs ih =>
    obtain ⟨r, rfl⟩ := h x (List.mem_cons_self x xs)
    have h2 := ih (fun y hy => h y (List.mem_cons_of_mem _ hy))
    simp [gatherResults, h2]

/-- C3 counterexample: on an 8000×8000 page (normalized to 3360×3360,
an arising pair), the bbox `[99, 99, 100, 100]` round-trips to
`[97, 97, 100, 100]`: the first coordinate moves by 2, violating the
claimed ±1 bound. -/
theorem bbox_roundtrip_two_off_cex :
    smart_resize 8000 8000 = some (3360, 3360) ∧
    pre_process_bboxes 8000 8000 [[99, 99, 100, 100]] 3360 3360 none none =
      some [[41, 41, 42, 42]] ∧
    post_process_cells 8000 8000
      (.list [.obj [("bbox", .list [.int 41, .int 41, .int 42, .int 42])]])
      3360 3360 none none =
      some [.obj [("bbox", .list [.int 97, .int 97, .int 100, .int 100])]] ∧
    (1 : Int) < 99 - 97 := by
  refine ⟨?_, ?_, ?_, ?_⟩
  · have hdiv : (8000 * MAX_PIXELS) / (28 * 28 * 8000) = 14400 := by decide
    have e1 : floorSqrtDiv (8000 * MAX_PIXELS) (28 * 28 * 8000) = 120 := by
      unfold floorSqrtDiv
      rw [hdiv]
      exact sqrt_eq_of_squeeze (by decide) (by decide)
    unfold smart_resize
    rw [if_neg (by decide)]
    simp only []
    rw [if_pos (by decide), e1]
  · rfl
  · rfl
  · decide


/-! ## Claim C2 — scheduler restores page order -/

/-- C2: for every page count `N ≥ 1` and every completion order (an
arbitrary permutation of the per-page task results, each of which
carries its own page index), `parse_pdf` returns a list of length `N`
whose `i`-th element has `page_no = i` — the page indices are exactly
`0..N-1`, with no duplicates or gaps. -/
theorem parse_pdf_order_restored
    (N : Nat) (f : Nat → PageResult)
    (completed : List (Except PageErr PageResult))
    (_hN : 1 ≤ N)
    (hperm : completed.Perm (((List.range N).map f).map Except.ok))
    (hpn : ∀ i, (f i).page_no = i) :
    ∃ out, parse_pdf_core completed = .ok out ∧
      out.length = N ∧ out.map PageResult.page_no = List.range N := by
  have hall : ∀ x ∈ completed, ∃ r, x = Except.ok r := by
    intro x hx
    have hx2 := hperm.mem_iff.mp hx
    rw [List.mem_map] at hx2
    obtain ⟨r, -, hr⟩ := hx2
    exact ⟨r, hr.symm⟩
  obtain ⟨rs, hg, hxs⟩ := gather_all_ok completed hall
  have hmap1 := hperm.map
    (fun x : Except PageErr PageResult => match x with | .ok r => r.page_no | .error _ => 0)
  have hL : completed.map
      (fun x : Except PageErr PageResult => match x with | .ok r => r.page_no | .error _ => 0) =
      rs.map PageResult.page_no := by
    rw [hxs, List.map_map]
    rfl
  have hR : (((List.range N).map f).map Except.ok).map
      (fun x : Except PageErr PageResult => match x with | .ok r => r.page_no | .error _ => 0) =
      List.range N := by
    rw [List.map_map, List.map_map]
    rw [show ((fun x : Except PageErr PageResult =>
        match x with | .ok r => r.page_no | .error _ => 0) ∘ Except.ok) ∘ f =
        fun i => (f i).page_no from rfl]
    have h2 : List.map (fun i => (f i).page_no) (List.range N) =
        List.map id (List.range N) :=
      List.map_congr_left (fun i _ => hpn i)
    rw [h2, List.map_id]
  have hperm2 : (rs.map PageResult.page_no).Perm (List.range N) := by
    rw [← hL, ← hR]
    exact hmap1
  have htrans : ∀ a b c : PageResult, pageNoLE a b = true → pageNoLE b c = true →
      pageNoLE a c = true := by
    intro a b c h1 h2
    simp only [pageNoLE, decide_eq_true_eq] at h1 h2 ⊢
    omega
  have htotal : ∀ a b : PageResult, (pageNoLE a b || pageNoLE b a) = true := by
    intro a b
    simp only [pageNoLE, Bool.or_eq_true, decide_eq_true_eq]
    omega
  have houtperm : (rs.mergeSort pageNoLE).Perm rs := List.mergeSort_perm rs _
  have hpair : (rs.mergeSort pageNoLE).Pairwise (fun a b => a.page_no ≤ b.page_no) :=
    (List.sorted_mergeSort htrans htotal rs).imp
      (by intro a b hab; simpa [pageNoLE] using hab)
  have hsorted2 : ((rs.mergeSort pageNoLE).map PageResult.page_no).Sorted (· ≤ ·) :=
    List.pairwise_map.mpr hpair
  have hfinal : (rs.mergeSort pageNoLE).map PageResult.page_no = List.range N :=
    List.eq_of_perm_of_sorted ((houtperm.map _).trans hperm2) hsorted2
      (List.sorted_le_range N)
  refine ⟨rs.mergeSort pageNoLE, ?_, ?_, hfinal⟩
  · unfold parse_pdf_core
    rw [hg]
  · have := congrArg List.length hfinal
    simpa using this

/-- C2 witness: three pages completing in the order 1, 0, 2 are
reassembled as pages 0, 1, 2. -/
theorem parse_pdf_order_restored_witness :
    1 ≤ 3 ∧
    (∃ out, parse_pdf_core
        ([.ok ⟨1, 1008, 700, .str "p", false⟩,
          .ok ⟨0, 1008, 700, .str "p", false⟩,
          .ok ⟨2, 1008, 700, .str "p", false⟩] :
          List (Except PageErr PageResult)) = .ok out ∧
      out.length = 3 ∧ out.map PageResult.page_no = List.range 3) :=
  ⟨by decide,
    parse_pdf_order_restored 3
      (fun i => ⟨i, 1008, 700, .str "p", false⟩)
      ([.ok ⟨1, 1008, 700, .str "p", false⟩,
        .ok ⟨0, 1008, 700, .str "p", false⟩,
        .ok ⟨2, 1008, 700, .str "p", false⟩] :
        List (Except PageErr PageResult))
      (by decide)
      (by exact List.Perm.swap _ _ _)
      (fun i => rfl)⟩

/-! ## Claim C8 — inference failure is fatal to the whole batch -/

/-- C8: when the external inference call of one page task fails, the
failure is not converted into a degraded page result: the page task
itself fails with that error, and the scheduler re-raises it for the
whole document, independently of the tasks still pending behind it in
completion order. -/
theorem inference_failure_aborts_batch
    (jsonLoads : String → Option PyVal) (clean : PyVal → CleanOut)
    (prompt_mode : String) (page_idx : Nat) (ow oh iw ih rh rw : Nat)
    (e : String)
    (hsr : smart_resize ih iw = some (rh, rw)) :
    parse_single_core jsonLoads clean prompt_mode page_idx ow oh iw ih
      none none (.error e) = .error (.infFail e) ∧
    ∀ (pre post : List (Except PageErr PageResult)),
      (∀ x ∈ pre, ∃ r, x = Except.ok r) →
      parse_pdf_core (pre ++ .error (.infFail e) :: post) =
        .error (.infFail e) := by
  constructor
  · unfold parse_single_core
    by_cases hpm : prompt_mode = "prompt_grounding_ocr" <;>
      simp [hpm, pyCoalesce, hsr] <;> rfl
  · intro pre post hpre
    unfold parse_pdf_core
    rw [gather_first_error pre (.infFail e) post hpre]

/-- C8 witness: a failing inference call on the middle page of three
aborts the whole batch. -/
theorem inference_failure_aborts_batch_witness :
    smart_resize 1000 700 = some (1008, 700) ∧
    (parse_single_core (fun _ => none) (fun _ => .text "t")
        "prompt_layout_all_en" 1 700 1000 700 1000
        none none (.error "connection refused") = .error (.infFail "connection refused") ∧
      ∀ (pre post : List (Except PageErr PageResult)),
        (∀ x ∈ pre, ∃ r, x = Except.ok r) →
        parse_pdf_core (pre ++ .error (.infFail "connection refused") :: post) =
          .error (.infFail "connection refused")) :=
  ⟨by decide,
    inference_failure_aborts_batch (fun _ => none) (fun _ => .text "t")
      "prompt_layout_all_en" 1 700 1000 700 1000 1008 700 "connection refused" (by decide)⟩

/-! ## Claim C4 — degraded pages: payload and presence -/

/-- C4 (amended): a structured-layout page whose model response fails
the parse step is emitted with `filtered = true`, but its payload is the
raw model response — the salvaged text computed by the fallback cleaner
is discarded by `_parse_single_image` (`parser.py:145` stores
`response`, not the first component returned by `post_process_output`).
The page is still present in the document-level result.  The original
claim (payload = salvaged text) is refuted by
`degraded_payload_is_raw_not_salvaged_cex`. -/
theorem degraded_page_raw_payload_present
    (jsonLoads : String → Option PyVal) (clean : PyVal → CleanOut)
    (page_idx : Nat) (ow oh iw ih rh rw : Nat) (response : String)
    (r : PageResult)
    (hjson : jsonLoads response = none)
    (hsr : smart_resize ih iw = some (rh, rw))
    (hr : parse_single_core jsonLoads clean "prompt_layout_all_en" page_idx
      ow oh iw ih none none (.ok response) = .ok r) :
    (r.page_no = page_idx ∧ r.filtered = true ∧ r.payload = .str response) ∧
    ∀ (N : Nat) (f : Nat → PageResult)
      (completed : List (Except PageErr PageResult)),
      completed.Perm (((List.range N).map f).map Except.ok) →
      f page_idx = r → page_idx < N →
      ∃ out, parse_pdf_core completed = .ok out ∧ r ∈ out := by
  have hcomp : parse_single_core jsonLoads clean "prompt_layout_all_en" page_idx
      ow oh iw ih none none (.ok response) =
      .ok ⟨page_idx, rh, rw, .str response, true⟩ := by
    cases hc : clean (.str response) with
    | text s =>
      simp [parse_single_core, hsr, post_process_output, passthroughModes,
        hjson, fallbackSalvage, hc, layoutModes]
      rfl
    | cells cs =>
      simp [parse_single_core, hsr, post_process_output, passthroughModes,
        hjson, fallbackSalvage, hc, layoutModes]
      rfl
  rw [hcomp] at hr
  injection hr with hr
  constructor
  · rw [← hr]
    exact ⟨rfl, rfl, rfl⟩
  · intro N f completed hperm hfr hlt
    have hall : ∀ x ∈ completed, ∃ r2, x = Except.ok r2 := by
      intro x hx
      have hx2 := hperm.mem_iff.mp hx
      rw [List.mem_map] at hx2
      obtain ⟨r2, -, hr2⟩ := hx2
      exact ⟨r2, hr2.symm⟩
    obtain ⟨rs, hg, hxs⟩ := gather_all_ok completed hall
    refine ⟨rs.mergeSort pageNoLE, ?_, ?_⟩
    · unfold parse_pdf_core
      rw [hg]
    · have hmem1 : Except.ok r ∈ (((List.range N).map f).map
          (Except.ok : PageResult → Except PageErr PageResult)) := by
        rw [List.mem_map]
        refine ⟨f page_idx, ?_, by rw [hfr]⟩
        rw [List.mem_map]
        exact ⟨page_idx, List.mem_range.mpr hlt, rfl⟩
      have hmem2 : Except.ok r ∈ completed := hperm.mem_iff.mpr hmem1
      rw [hxs, List.mem_map] at hmem2
      obtain ⟨r2, hr2mem, hr2eq⟩ := hmem2
      have : r2 = r := by injection hr2eq
      rw [← this]
      exact ((rs.mergeSort_perm pageNoLE).mem_iff).mpr hr2mem

/-- C4 witness: the amended theorem at a concrete degraded page that is
page 1 of a 2-page document. -/
theorem degraded_page_raw_payload_present_witness :
    ((fun _ => none : String → Option PyVal) "RAW" = none) ∧
    smart_resize 1000 700 = some (1008, 700) ∧
    parse_single_core (fun _ => none) (fun _ => .text "CLEAN")
      "prompt_layout_all_en" 1 700 1000 700 1000 none none (.ok "RAW") =
      .ok ⟨1, 1008, 700, .str "RAW", true⟩ ∧
    (((⟨1, 1008, 700, .str "RAW", true⟩ : PageResult).page_no = 1 ∧
      (⟨1, 1008, 700, .str "RAW", true⟩ : PageResult).filtered = true ∧
      (⟨1, 1008, 700, .str "RAW", true⟩ : PageResult).payload = .str "RAW") ∧
    ∀ (N : Nat) (f : Nat → PageResult)
      (completed : List (Except PageErr PageResult)),
      completed.Perm (((List.range N).map f).map Except.ok) →
      f 1 = ⟨1, 1008, 700, .str "RAW", true⟩ → 1 < N →
      ∃ out, parse_pdf_core completed = .ok out ∧
        (⟨1, 1008, 700, .str "RAW", true⟩ : PageResult) ∈ out) :=
  ⟨rfl, by decide, rfl,
    degraded_page_raw_payload_present (fun _ => none) (fun _ => .text "CLEAN")
      1 700 1000 700 1000 1008 700 "RAW" ⟨1, 1008, 700, .str "RAW", true⟩
      rfl (by decide) rfl⟩

/-- C4 counterexample: `post_process_output` salvages the cleaned text
`"CLEAN"` for an unparseable response `"RAW"`, but the emitted page
result stores the raw `"RAW"` under its payload — not the salvaged
text, refuting the claimed payload. -/
theorem degraded_payload_is_raw_not_salvaged_cex :
    post_process_output (fun _ => none) (fun _ => .text "CLEAN") "RAW"
      "prompt_layout_all_en" 700 1000 700 1000 none none =
      .pair (.str "CLEAN") true ∧
    parse_single_core (fun _ => none) (fun _ => .text "CLEAN")
      "prompt_layout_all_en" 0 700 1000 700 1000 none none (.ok "RAW") =
      .ok ⟨0, 1008, 700, .str "RAW", true⟩ ∧
    PyVal.str "RAW" ≠ PyVal.str "CLEAN" := by
  refine ⟨rfl, rfl, ?_⟩
  intro h
  simp only [PyVal.str.injEq] at h
  exact absurd h (by decide)

/-! ## Claim C1 — no bbox-legality gate in post_process_output -/

/-- C1 (amended): `post_process_output` performs no bbox-legality check:
`is_legal_bbox` exists in the source but is never called.  Whenever the
response parses and every cell rescales, the full cell batch is returned
as structured output with `filtered = false`, even when the batch fails
`is_legal_bbox` — the fallback branch is not taken for illegal bboxes.
The whole-batch legality gate of the original claim is refuted by
`illegal_bbox_no_fallback_cex`. -/
theorem illegal_bbox_batch_accepted
    (jsonLoads : String → Option PyVal) (clean : PyVal → CleanOut)
    (response prompt_mode : String) (ow oh iw ih : Nat)
    (minP maxP : Option Nat) (parsed : PyVal) (cellsOut : List PyVal)
    (hpm : prompt_mode ∉ passthroughModes)
    (hjson : jsonLoads response = some parsed)
    (hcells : post_process_cells ow oh parsed iw ih minP maxP = some cellsOut)
    (_hillegal : is_legal_bbox cellsOut = false) :
    post_process_output jsonLoads clean response prompt_mode
      ow oh iw ih minP maxP = .pair (.list cellsOut) false := by
  unfold post_process_output
  rw [if_neg hpm]
  simp only [hjson, hcells]

/-- C1 witness: the amended theorem at the spec §8 scenario — three
cells, one with the illegal bbox `[100, 100, 50, 50]`; the batch is
illegal yet accepted unfiltered. -/
theorem illegal_bbox_batch_accepted_witness :
    ("prompt_layout_all_en" ∉ passthroughModes) ∧
    ((fun s => if s = "R" then some (PyVal.list [cellA, cellBad, cellC]) else none) "R"
      = some (PyVal.list [cellA, cellBad, cellC])) ∧
    (post_process_cells 700 1008 (PyVal.list [cellA, cellBad, cellC]) 700 1008
      none none = some [cellA, cellBad, cellC]) ∧
    (is_legal_bbox [cellA, cellBad, cellC] = false) ∧
    post_process_output
      (fun s => if s = "R" then some (PyVal.list [cellA, cellBad, cellC]) else none)
      (fun _ => .text "salvage") "R" "prompt_layout_all_en"
      700 1008 700 1008 none none = .pair (.list [cellA, cellBad, cellC]) false :=
  ⟨by decide, rfl, rfl, rfl,
    illegal_bbox_batch_accepted
      (fun s => if s = "R" then some (PyVal.list [cellA, cellBad, cellC]) else none)
      (fun _ => .text "salvage") "R" "prompt_layout_all_en"
      700 1008 700 1008 none none (PyVal.list [cellA, cellBad, cellC])
      [cellA, cellBad, cellC] (by decide) rfl rfl rfl⟩

/-- C1 counterexample: a structured response of three cells containing
the illegal bbox `[100, 100, 50, 50]` does NOT fall back: the whole
batch, the two well-formed cells included, is emitted as a structured
cell list with `filtered = false`, contradicting the claimed
whole-batch parse failure with `filtered = true`. -/
theorem illegal_bbox_no_fallback_cex :
    post_process_output
      (fun s => if s = "RESP" then some (PyVal.list [cellA, cellBad, cellC]) else none)
      (fun _ => .text "salvage") "RESP" "prompt_layout_all_en"
      700 1008 700 1008 none none = .pair (.list [cellA, cellBad, cellC]) false ∧
    is_legal_bbox [cellA, cellBad, cellC] = false ∧
    cellA ∈ [cellA, cellBad, cellC] ∧ cellC ∈ [cellA, cellBad, cellC] := by
  refine ⟨rfl, rfl, ?_, ?_⟩
  · exact List.mem_cons_self _ _
  · exact List.mem_cons_of_mem _ (List.mem_cons_of_mem _ (List.mem_cons_self _ _))

/-! ## Claim C6 — fallback salvage text -/

/-- C6: in the fallback branch of `post_process_output` (reached when
`json.loads` fails, or when it succeeds and the cell post-processing
then fails), a cleaner output that is a list yields the `text` fields of
exactly the records that have one, in order, joined by blank lines; a
cleaner output that is not a list is returned unchanged.  In both cases
the second component is `true`. -/
theorem fallback_salvage_join_spec
    (jsonLoads : String → Option PyVal) (clean : PyVal → CleanOut)
    (response prompt_mode : String) (ow oh iw ih : Nat)
    (minP maxP : Option Nat)
    (hpm : prompt_mode ∉ passthroughModes) :
    (jsonLoads response = none →
      (∀ cs, clean (.str response) = .cells cs →
        post_process_output jsonLoads clean response prompt_mode
          ow oh iw ih minP maxP =
          .pair (.str (String.intercalate "\n\n"
            (cs.filterMap CellRec.textField))) true) ∧
      (∀ s, clean (.str response) = .text s →
        post_process_output jsonLoads clean response prompt_mode
          ow oh iw ih minP maxP = .pair (.str s) true)) ∧
    (∀ parsed, jsonLoads response = some parsed →
      post_process_cells ow oh parsed iw ih minP maxP = none →
      (∀ cs, clean parsed = .cells cs →
        post_process_output jsonLoads clean response prompt_mode
          ow oh iw ih minP maxP =
          .pair (.str (String.intercalate "\n\n"
            (cs.filterMap CellRec.textField))) true) ∧
      (∀ s, clean parsed = .text s →
        post_process_output jsonLoads clean response prompt_mode
          ow oh iw ih minP maxP = .pair (.str s) true)) := by
  constructor
  · intro hjson
    constructor
    · intro cs hc
      unfold post_process_output
      rw [if_neg hpm]
      simp only [hjson]
      unfold fallbackSalvage
      rw [hc]
    · intro s hc
      unfold post_process_output
      rw [if_neg hpm]
      simp only [hjson]
      unfold fallbackSalvage
      rw [hc]
  · intro parsed hjson hcells
    constructor
    · intro cs hc
      unfold post_process_output
      rw [if_neg hpm]
      simp only [hjson, hcells]
      unfold fallbackSalvage
      rw [hc]
    · intro s hc
      unfold post_process_output
      rw [if_neg hpm]
      simp only [hjson, hcells]
      unfold fallbackSalvage
      rw [hc]

/-- C6 witness: a cleaner output of three records, the middle one
without a `text` field, salvages to the blank-line join of the other
two. -/
theorem fallback_salvage_join_spec_witness :
    ("prompt_layout_all_en" ∉ passthroughModes) ∧
    ((fun _ => none : String → Option PyVal) "x" = none) ∧
    ((fun _ => CleanOut.cells [⟨some "alpha"⟩, ⟨none⟩, ⟨some "beta"⟩])
      (PyVal.str "x") = .cells [⟨some "alpha"⟩, ⟨none⟩, ⟨some "beta"⟩]) ∧
    String.intercalate "\n\n"
      (([⟨some "alpha"⟩, ⟨none⟩, ⟨some "beta"⟩] : List CellRec).filterMap
        CellRec.textField) = "alpha\n\nbeta" ∧
    post_process_output (fun _ => none)
      (fun _ => CleanOut.cells [⟨some "alpha"⟩, ⟨none⟩, ⟨some "beta"⟩])
      "x" "prompt_layout_all_en" 700 1008 700 1008 none none =
      .pair (.str (String.intercalate "\n\n"
        (([⟨some "alpha"⟩, ⟨none⟩, ⟨some "beta"⟩] : List CellRec).filterMap
          CellRec.textField))) true :=
  ⟨by decide, rfl, rfl, rfl,
    ((fallback_salvage_join_spec (fun _ => none)
      (fun _ => CleanOut.cells [⟨some "alpha"⟩, ⟨none⟩, ⟨some "beta"⟩])
      "x" "prompt_layout_all_en" 700 1008 700 1008 none none
      (by decide)).1 rfl).1 [⟨some "alpha"⟩, ⟨none⟩, ⟨some "beta"⟩] rfl⟩

/-! ## Claim C10 — empty cell list falls back -/

/-- C10: a structured-layout response that parses as the empty JSON list
is not returned as an empty structured cell list with
`filtered = false`: the non-empty assertion of `post_process_cells`
fails inside the `try` block and `post_process_output` takes the
fallback branch, returning `filtered = true`. -/
theorem empty_cell_list_falls_back
    (jsonLoads : String → Option PyVal) (clean : PyVal → CleanOut)
    (response prompt_mode : String) (ow oh iw ih : Nat)
    (minP maxP : Option Nat)
    (hpm : prompt_mode ∉ passthroughModes)
    (hjson : jsonLoads response = some (.list [])) :
    post_process_cells ow oh (.list []) iw ih minP maxP = none ∧
    ∃ payload, post_process_output jsonLoads clean response prompt_mode
      ow oh iw ih minP maxP = .pair payload true := by
  constructor
  · rfl
  · unfold post_process_output
    rw [if_neg hpm]
    simp only [hjson]
    unfold fallbackSalvage
    cases clean (.list []) with
    | text s => exact ⟨.str s, rfl⟩
    | cells cs => exact ⟨_, rfl⟩

/-- C10 witness: the theorem at a concrete empty-list response. -/
theorem empty_cell_list_falls_back_witness :
    ("prompt_layout_all_en" ∉ passthroughModes) ∧
    ((fun s => if s = "[]" then some (PyVal.list []) else none) "[]" =
      some (PyVal.list [])) ∧
    (post_process_cells 700 1008 (PyVal.list []) 700 1008 none none = none ∧
    ∃ payload, post_process_output
      (fun s => if s = "[]" then some (PyVal.list []) else none)
      (fun _ => .text "salvaged") "[]" "prompt_layout_all_en"
      700 1008 700 1008 none none = .pair payload true) :=
  ⟨by decide, rfl,
    empty_cell_list_falls_back
      (fun s => if s = "[]" then some (PyVal.list []) else none)
      (fun _ => .text "salvaged") "[]" "prompt_layout_all_en"
      700 1008 700 1008 none none (by decide) rfl⟩

/-! ## Claim C7 — unsupported-extension gate of parse_file -/

/-- C7: `parse_file` fails exactly when the file extension is neither
`.pdf` nor a supported image extension; the unsupported-extension error
is raised before any page work — the result in that case is the same
whatever the PDF/image pipelines would do — and for supported
extensions the page-result list of the corresponding pipeline is
returned. -/
theorem parse_file_unsupported_ext_gate
    (imageExts : List String)
    (pdfResult imgResult : Except PageErr (List PageResult))
    (fileExt : String) (rs1 rs2 : List PageResult)
    (h1 : pdfResult = .ok rs1) (h2 : imgResult = .ok rs2) :
    ((∃ e, parse_file_core imageExts pdfResult imgResult fileExt = .error e) ↔
      (fileExt ≠ ".pdf" ∧ fileExt ∉ imageExts)) ∧
    (fileExt = ".pdf" →
      parse_file_core imageExts pdfResult imgResult fileExt = .ok rs1) ∧
    (fileExt ≠ ".pdf" → fileExt ∈ imageExts →
      parse_file_core imageExts pdfResult imgResult fileExt = .ok rs2) ∧
    (∀ pdfR imgR, fileExt ≠ ".pdf" → fileExt ∉ imageExts →
      parse_file_core imageExts pdfR imgR fileExt =
        .error (.unsupportedExt fileExt)) := by
  subst h1 h2
  refine ⟨?_, ?_, ?_, ?_⟩
  · constructor
    · rintro ⟨e, he⟩
      unfold parse_file_core at he
      by_cases hpdf : fileExt = ".pdf"
      · rw [if_pos hpdf] at he
        exact absurd he (by simp)
      · rw [if_neg hpdf] at he
        by_cases himg : fileExt ∈ imageExts
        · rw [if_pos himg] at he
          exact absurd he (by simp)
        · exact ⟨hpdf, himg⟩
    · rintro ⟨hpdf, himg⟩
      refine ⟨.unsupportedExt fileExt, ?_⟩
      unfold parse_file_core
      rw [if_neg hpdf, if_neg himg]
  · intro hpdf
    unfold parse_file_core
    rw [if_pos hpdf]
  · intro hpdf himg
    unfold parse_file_core
    rw [if_neg hpdf, if_pos himg]
  · intro pdfR imgR hpdf himg
    unfold parse_file_core
    rw [if_neg hpdf, if_neg himg]

/-- C7 witness: the gate at the extension `".docx"` against the image
set `[".jpg", ".png"]` — it fails — and at `".pdf"` — it succeeds. -/
theorem parse_file_unsupported_ext_gate_witness :
    ((Except.ok [] : Except PageErr (List PageResult)) = .ok []) ∧
    (((∃ e, parse_file_core [".jpg", ".png"] (.ok []) (.ok []) ".docx" = .error e) ↔
      (".docx" ≠ ".pdf" ∧ ".docx" ∉ [".jpg", ".png"])) ∧
    (".docx" = ".pdf" →
      parse_file_core [".jpg", ".png"] (.ok []) (.ok []) ".docx" = .ok []) ∧
    (".docx" ≠ ".pdf" → ".docx" ∈ [".jpg", ".png"] →
      parse_file_core [".jpg", ".png"] (.ok []) (.ok []) ".docx" = .ok []) ∧
    (∀ pdfR imgR, ".docx" ≠ ".pdf" → ".docx" ∉ [".jpg", ".png"] →
      parse_file_core [".jpg", ".png"] pdfR imgR ".docx" =
        .error (.unsupportedExt ".docx"))) :=
  ⟨rfl, parse_file_unsupported_ext_gate [".jpg", ".png"] (.ok []) (.ok [])
    ".docx" [] [] rfl rfl⟩

/-! ## Claim C9 — worker-pool size -/

/-- C9 (amended): the worker-pool size used by `parse_pdf` equals
`min(page_count, num_thread)`, and it is at least 1 whenever the
document has at least one page and the configured `num_thread` is at
least 1.  The unconditional "always ≥ 1" of the original claim fails
for an empty document: see `pool_size_zero_for_empty_pdf_cex`. -/
theorem pool_size_min_and_positive (total_pages num_thread : Nat)
    (h1 : 1 ≤ total_pages) (h2 : 1 ≤ num_thread) :
    pool_size total_pages num_thread = min total_pages num_thread ∧
    1 ≤ pool_size total_pages num_thread := by
  constructor
  · rfl
  · unfold pool_size
    omega

/-- C9 witness: three pages, 64 configured threads. -/
theorem pool_size_min_and_positive_witness :
    1 ≤ 3 ∧ 1 ≤ 64 ∧
    (pool_size 3 64 = min 3 64 ∧ 1 ≤ pool_size 3 64) :=
  ⟨by decide, by decide, pool_size_min_and_positive 3 64 (by decide) (by decide)⟩

/-- C9 counterexample: a zero-page document with 64 configured threads
yields a pool size of 0, refuting "always at least 1" (Python's
`ThreadPool(0)` then raises `ValueError`). -/
theorem pool_size_zero_for_empty_pdf_cex :
    pool_size 0 64 = 0 ∧ ¬ (1 ≤ pool_size 0 64) := by
  decide
